import Mathlib

/-!
Shallow embedding of the CSV visualization dashboard
(`src/utils/CSVVisualizationDashboard.tsx`): the dataset model, the stride
sampler, column classification, default axis seeding, per-chart-type series
synthesis, and the render-path view-state resolution, together with theorems
settling the frozen claims about them.

JS numbers are modelled by `ℚ` (the parsed CSV data only ever carries finite
numeric literals); `NaN` results of the JS coercions are modelled by `none`
in `Option ℚ`-valued coercion functions.  JS objects are modelled by
insertion-ordered association lists; the ECMAScript own-property-key order
(array-index keys ascending first, then string keys in insertion order) is
modelled explicitly where the code enumerates an object (`Object.entries`).
-/

namespace CSVDash

/-- A CSV cell value after Papa-parse dynamic typing: a finite number,
a text string, or null (the parser's result for an empty cell). -/
inductive Value where
  | num (q : ℚ)
  | str (s : String)
  | null
deriving DecidableEq, Repr

/-- A parsed CSV record: ordered association list from column name to value
(a JS object with insertion-ordered string keys). -/
abbrev Record := List (String × Value)

/-- JS property access `d[k]`; `none` models `undefined` (absent field). -/
def getField (d : Record) (k : String) : Option Value :=
  (d.find? (fun kv => kv.1 == k)).map (fun kv => kv.2)

/-- Strip leading and trailing whitespace from a character list (the string
functions here are kept structural so that concrete runs reduce). -/
def trimChars (l : List Char) : List Char :=
  ((l.dropWhile Char.isWhitespace).reverse.dropWhile Char.isWhitespace).reverse

/-- Lowercase a string characterwise. -/
def lowerStr (s : String) : String := ⟨s.toList.map Char.toLower⟩

/-- Accumulate a run of leading decimal digits: value so far, digit count,
remaining characters. -/
def takeDigits : List Char → Nat → Nat → Nat × Nat × List Char
  | [], acc, n => (acc, n, [])
  | c :: rest, acc, n =>
    if c.isDigit then takeDigits rest (acc * 10 + (c.toNat - 48)) (n + 1)
    else (acc, n, c :: rest)

/-- Parse an unsigned decimal numeral `digits [. digits]` (at least one digit
overall), returning its value and the unconsumed suffix. -/
def parseUnsignedDec (l : List Char) : Option (ℚ × List Char) :=
  match takeDigits l 0 0 with
  | (ip, ni, r1) =>
    match r1 with
    | '.' :: r2 =>
      match takeDigits r2 0 0 with
      | (fp, nf, r3) =>
        if ni + nf = 0 then none
        else some ((ip : ℚ) + (fp : ℚ) / ((10 : ℚ) ^ nf), r3)
    | _ => if ni = 0 then none else some ((ip : ℚ), r1)

/-- Models the JS `Number(string)` coercion on the strings this dashboard can
meet: surrounding whitespace trimmed, the empty string is `0`, an optionally
signed decimal numeral is its value, anything else is `NaN` (`none`).
(Exponent, hex and `Infinity` forms are out of the data model's scope.) -/
def strToNum (s : String) : Option ℚ :=
  match trimChars s.toList with
  | [] => some 0
  | l =>
    let signAndRest : ℚ × List Char :=
      match l with
      | '-' :: r => ((-1 : ℚ), r)
      | '+' :: r => ((1 : ℚ), r)
      | _ => ((1 : ℚ), l)
    match parseUnsignedDec signAndRest.2 with
    | some (v, []) => some (signAndRest.1 * v)
    | _ => none

/-- Models `!isNaN(Number.parseFloat s)`: the trimmed string starts with an
optionally signed decimal numeral (a numeric prefix suffices). -/
def parseFloatOk (s : String) : Bool :=
  let l := trimChars s.toList
  let l2 : List Char :=
    match l with
    | '-' :: r => r
    | '+' :: r => r
    | _ => l
  (parseUnsignedDec l2).isSome

/-- JS `Number(v)` on a cell value; `none` models `NaN`.
Note `Number(null) = 0`. -/
def jsNumberOfValue : Value → Option ℚ
  | .num q => some q
  | .str s => strToNum s
  | .null => some 0

/-- JS `Number(d[k])` where the field may be absent; `Number(undefined) = NaN`. -/
def jsNumberOpt : Option Value → Option ℚ
  | none => none
  | some v => jsNumberOfValue v

/-- JS `String(v)` on a cell value (number formatting is abstracted by the
rational's canonical representation; it agrees with JS on integers). -/
def jsStringOfValue : Value → String
  | .num q => toString q
  | .str s => s
  | .null => "null"

/-- JS `String(d[k])` where the field may be absent. -/
def jsStringOpt : Option Value → String
  | none => "undefined"
  | some v => jsStringOfValue v

/-- The column-classification test of `loadData`/`numericColumns`:
`typeof value === "number" || (!isNaN(Number.parseFloat(value)) && isFinite(value))`. -/
def isNumericCell : Option Value → Bool
  | some (.num _) => true
  | some (.str s) => parseFloatOk s && (strToNum s).isSome
  | some .null => false
  | none => false

/-- `numericColumns`: keys of the first record whose value passes the numeric
test (empty dataset yields the empty classification). -/
def numericColumnsOf : List Record → List String
  | [] => []
  | r :: _ => (r.map (fun kv => kv.1)).filter (fun k => isNumericCell (getField r k))

/-- Substring test on character lists (JS `String.prototype.includes`). -/
def charsContain (needle : List Char) : List Char → Bool
  | [] => needle.isEmpty
  | c :: rest => needle.isPrefixOf (c :: rest) || charsContain needle rest

/-- JS `hay.includes(needle)`. -/
def strIncludes (hay needle : String) : Bool := charsContain needle.toList hay.toList

/-- The latitude column-name heuristic of `geoColumns`. -/
def isLatName (c : String) : Bool :=
  strIncludes (lowerStr c) "lat" || strIncludes (lowerStr c) "latitude" ||
    lowerStr c == "y"

/-- The longitude column-name heuristic of `geoColumns`. -/
def isLonName (c : String) : Bool :=
  strIncludes (lowerStr c) "lon" || strIncludes (lowerStr c) "lng" ||
    strIncludes (lowerStr c) "longitude" || lowerStr c == "x"

/-- `geoColumns`: the first column matching each heuristic over the first
record's keys; `{lat: latCol || null, lon: lonCol || null}`. -/
def geoColumnsOf (csvData : List Record) : Option String × Option String :=
  match csvData with
  | [] => (none, none)
  | r :: _ =>
    ((r.map (fun kv => kv.1)).find? isLatName, (r.map (fun kv => kv.1)).find? isLonName)

/-- The availability gate every consumer of `geoColumns` applies:
`geoColumns.lat && geoColumns.lon`. -/
def geoAvailable (csvData : List Record) : Bool :=
  (geoColumnsOf csvData).1.isSome && (geoColumnsOf csvData).2.isSome

/-- The sampler's default bound. -/
def MAX_POINTS : Nat := 2000

/-- `sampleData`: return short inputs unchanged; otherwise select every
`step`-th record (`step = floor(len / maxPoints)`) starting at index 0 and
truncate to the first `maxPoints` of them. -/
def sampleData {α : Type} (data : List α) (maxPoints : Nat) : List α :=
  if data.length ≤ maxPoints then data
  else
    let step := data.length / maxPoints
    (((List.range data.length).filter (fun i => i % step == 0)).filterMap
      (fun i => data.get? i)).take maxPoints

/-- The default axis assignment block of `loadData` (an unset axis is the
empty string, falsy in JS). -/
def defaultAxes (numericCols : List String) (xAxis yAxis : String) : String × String :=
  let x := if 0 < numericCols.length ∧ xAxis = "" then numericCols.getD 0 xAxis else xAxis
  let y :=
    if 1 < numericCols.length ∧ yAxis = "" then numericCols.getD 1 yAxis
    else if numericCols.length = 1 ∧ yAxis = "" then numericCols.getD 0 yAxis
    else yAxis
  (x, y)

/-- Axis seeding on load: runs only when the sampled dataset is non-empty. -/
def loadAxes (sampledData : List Record) (xAxis yAxis : String) : String × String :=
  if 0 < sampledData.length then defaultAxes (numericColumnsOf sampledData) xAxis yAxis
  else (xAxis, yAxis)

/-- JS `{...row, index: v}`: overwrite an existing `index` field in place,
otherwise append it as the last field. -/
def setIndexField (row : Record) (v : Value) : Record :=
  if row.any (fun kv => kv.1 == "index") then
    row.map (fun kv => if kv.1 == "index" then (kv.1, v) else kv)
  else row ++ [("index", v)]

/-- Indexed map underlying `chartData`: row at 0-based position `i` receives
`index = i + 1`. -/
def addIndexFrom (i : Nat) : List Record → List Record
  | [] => []
  | r :: t => setIndexField r (Value.num ((i : ℚ) + 1)) :: addIndexFrom (i + 1) t

/-- `chartData`: the sampled records with the 1-based `index` pseudo-column. -/
def chartDataOf (csvData : List Record) : List Record := addIndexFrom 0 csvData

/-- `xyValid` of `renderPlotlyChart`: pair every record's raw x-value with the
numeric coercion of its y-value, then keep the pairs whose y is finite. -/
def xyValid (chartData : List Record) (x y : String) : List (Option Value × ℚ) :=
  (chartData.map (fun d => (getField d x, jsNumberOpt (getField d y)))).filterMap
    (fun p =>
      match p.2 with
      | some q => some (p.1, q)
      | none => none)

/-- Pie group label: `String(d[xAxis])`. -/
def pieLabel (d : Record) (x : String) : String := jsStringOpt (getField d x)

/-- Pie contribution: `Number(d[yAxis]) || 0` (a `NaN` coercion contributes 0). -/
def pieValue (d : Record) (y : String) : ℚ := (jsNumberOpt (getField d y)).getD 0

/-- One step of the pie `reduce`: add to an existing group in place, else
append a new group.  (When the stored sum is `0` the code's falsy test takes
the overwrite branch, which coincides with `0 + v`.) -/
def pieUpsert : List (String × ℚ) → String → ℚ → List (String × ℚ)
  | [], label, v => [(label, v)]
  | kv :: rest, label, v =>
    if kv.1 = label then (kv.1, kv.2 + v) :: rest
    else kv :: pieUpsert rest label v

/-- The pie accumulator object, as an insertion-ordered association list. -/
def pieDataOf (chartData : List Record) (x y : String) : List (String × ℚ) :=
  chartData.foldl (fun acc d => pieUpsert acc (pieLabel d x) (pieValue d y)) []

/-- Decimal numeral value of an all-digit, non-empty character list. -/
def digitsToNat? (l : List Char) : Option Nat :=
  if l ≠ [] ∧ l.all Char.isDigit then some (takeDigits l 0 0).1 else none

/-- ECMAScript array-index key: the canonical decimal form of an integer
below `2^32 - 1`. -/
def isArrayIndexKey (s : String) : Bool :=
  match digitsToNat? s.toList with
  | some n => toString n == s && n < 4294967295
  | none => false

/-- Insert one entry into a list ascending by numeric key value. -/
def insertByKey (kv : String × ℚ) : List (String × ℚ) → List (String × ℚ)
  | [] => [kv]
  | a :: t =>
    if (digitsToNat? kv.1.toList).getD 0 ≤ (digitsToNat? a.1.toList).getD 0 then kv :: a :: t
    else a :: insertByKey kv t

/-- Sort entries ascending by numeric key value (insertion sort). -/
def sortIndexKeys : List (String × ℚ) → List (String × ℚ)
  | [] => []
  | a :: t => insertByKey a (sortIndexKeys t)

/-- ECMAScript own-property-key enumeration order used by `Object.entries`:
array-index keys ascending first, then the remaining string keys in
insertion order. -/
def jsEntriesOrder (l : List (String × ℚ)) : List (String × ℚ) :=
  sortIndexKeys (l.filter (fun kv => isArrayIndexKey kv.1)) ++
    l.filter (fun kv => !isArrayIndexKey kv.1)

/-- `pieEntries = Object.entries(pieData).slice(0, 8)`. -/
def pieEntriesOf (chartData : List Record) (x y : String) : List (String × ℚ) :=
  (jsEntriesOrder (pieDataOf chartData x y)).take 8

/-- JS loose `v != null`, where `v` may be `undefined`. -/
def jsLooseNonNull : Option Value → Bool
  | none => false
  | some .null => false
  | some _ => true

/-- Global JS `isNaN(v)`: the numeric coercion of `v` is `NaN`. -/
def jsIsNaN (v : Option Value) : Bool := (jsNumberOpt v).isNone

/-- `validGeoData`: records whose two geo cells are non-null, present, and
survive numeric coercion. -/
def geoFilter (chartData : List Record) (lat lon : String) : List Record :=
  chartData.filter (fun d =>
    jsLooseNonNull (getField d lat) && jsLooseNonNull (getField d lon) &&
      !jsIsNaN (getField d lat) && !jsIsNaN (getField d lon))

/-- The geo cell values of the filtered records as rationals.  The code sums
the raw cell values; under the geograph theorems' hypothesis that the
filtered cells are numeric this extraction is exactly those values. -/
def geoNums (filtered : List Record) (c : String) : List ℚ :=
  filtered.map (fun d => (jsNumberOpt (getField d c)).getD 0)

/-- Map center: `lats.reduce((a, b) => a + b, 0) / lats.length` and likewise
for longitudes. -/
def geoCenter (filtered : List Record) (lat lon : String) : ℚ × ℚ :=
  let lats := geoNums filtered lat
  let lons := geoNums filtered lon
  (lats.foldl (fun a b => a + b) 0 / (lats.length : ℚ),
   lons.foldl (fun a b => a + b) 0 / (lons.length : ℚ))

/-- `Math.max(...l)` on a non-empty list (0 on the empty list, which the
geograph theorems exclude). -/
def maxD : List ℚ → ℚ
  | [] => 0
  | a :: t => t.foldl max a

/-- `Math.min(...l)` on a non-empty list. -/
def minD : List ℚ → ℚ
  | [] => 0
  | a :: t => t.foldl min a

/-- The ordered zoom thresholds of the geograph layout. -/
def zoomOf (range : ℚ) : Nat :=
  if range < 1 then 8 else if range < 5 then 6 else if range < 20 then 4
  else if range < 50 then 3 else 2

/-- The zoom the geograph layout receives:
`zoomOf (max latRange lonRange)`. -/
def geoZoom (filtered : List Record) (lat lon : String) : Nat :=
  zoomOf (max (maxD (geoNums filtered lat) - minD (geoNums filtered lat))
    (maxD (geoNums filtered lon) - minD (geoNums filtered lon)))

/-- The latitude array of the geograph trace (raw cell values). -/
def geoSeriesLat (chartData : List Record) (lat lon : String) : List (Option Value) :=
  (geoFilter chartData lat lon).map (fun d => getField d lat)

/-- The longitude array of the geograph trace. -/
def geoSeriesLon (chartData : List Record) (lat lon : String) : List (Option Value) :=
  (geoFilter chartData lat lon).map (fun d => getField d lon)

/-- State inputs the component's render path branches on. -/
structure ViewInputs where
  loading : Bool
  error : Option String
  csvData : List Record

/-- Outcome of one fetch+parse attempt (the transport and the parser's
completion/rejection, external collaborators of the core). -/
inductive FetchOutcome where
  | transportFail (msg : String)
  | httpFail (status : Nat)
  | parseFail (msg : String)
  | success (rows : List Record)

/-- Models `fetchCSVData`: a non-ok response throws
`HTTP error! status: ...`; a transport or parse rejection propagates;
otherwise the parsed rows are returned. -/
def fetchResult : FetchOutcome → Except String (List Record)
  | .transportFail m => .error m
  | .httpFail st => .error ("HTTP error! status: " ++ toString st)
  | .parseFail m => .error m
  | .success rows => .ok rows

/-- Resolution of `loadData`/`handleRefresh`: on success store the sampled
rows and clear the error; on failure keep the previous rows and store the
message; `loading` ends false either way. -/
def afterAttempt (prev : List Record) (o : FetchOutcome) : ViewInputs :=
  match fetchResult o with
  | .ok rows => { loading := false, error := none, csvData := sampleData rows MAX_POINTS }
  | .error m => { loading := false, error := some m, csvData := prev }

/-- The view-state phases of the render path. -/
inductive Phase where
  | Loading
  | Error
  | Empty
  | NoNumericData
  | Ready
deriving DecidableEq, Repr

/-- The render path's early returns, in source order. -/
def viewPhase (s : ViewInputs) (plotType : String) : Phase :=
  if s.loading then .Loading
  else
    match s.error with
    | some _ => .Error
    | none =>
      if s.csvData.length = 0 then .Empty
      else if (numericColumnsOf s.csvData).length = 0 ∧ plotType ≠ "geograph" then .NoNumericData
      else .Ready

/-- The dataset/axis state the axis-membership claim quantifies over. -/
structure DashState where
  csvData : List Record
  xAxis : String
  yAxis : String
deriving DecidableEq, Repr

/-- Mount state: no data, axes unset. -/
def initState : DashState := ⟨[], "", ""⟩

/-- `loadData` success path: store the sampled rows and seed unset axes. -/
def loadState (rows : List Record) (s : DashState) : DashState :=
  let sampled := sampleData rows MAX_POINTS
  let axes := loadAxes sampled s.xAxis s.yAxis
  ⟨sampled, axes.1, axes.2⟩

/-- `handleRefresh` success path: replace the dataset wholesale, keeping the
axis selection untouched. -/
def refreshState (rows : List Record) (s : DashState) : DashState :=
  ⟨sampleData rows MAX_POINTS, s.xAxis, s.yAxis⟩

/-- The user/effect transitions that touch the dataset or the axes.  The
axis selectors offer `index` plus the numeric columns for x, and the numeric
columns for y. -/
inductive DashStep : DashState → DashState → Prop where
  | load (rows : List Record) (s : DashState) : DashStep s (loadState rows s)
  | setX (c : String) (s : DashState) :
      c = "index" ∨ c ∈ numericColumnsOf s.csvData → DashStep s ⟨s.csvData, c, s.yAxis⟩
  | setY (c : String) (s : DashState) :
      c ∈ numericColumnsOf s.csvData → DashStep s ⟨s.csvData, s.xAxis, c⟩
  | refresh (rows : List Record) (s : DashState) : DashStep s (refreshState rows s)

/-- States reachable from mount. -/
inductive Reachable : DashState → Prop where
  | init : Reachable initState
  | step {s t : DashState} : Reachable s → DashStep s t → Reachable t

/-- The claimed invariant: each set axis lies in
`numericColumns ∪ {"index"}` of the current dataset. -/
def axesWithinColumns (s : DashState) : Prop :=
  (s.xAxis ≠ "" → s.xAxis = "index" ∨ s.xAxis ∈ numericColumnsOf s.csvData) ∧
  (s.yAxis ≠ "" → s.yAxis = "index" ∨ s.yAxis ∈ numericColumnsOf s.csvData)

/-- Association-list lookup with propositional key equality. -/
def alookup (k : String) : List (String × ℚ) → Option ℚ
  | [] => none
  | kv :: t => if kv.1 = k then some kv.2 else alookup k t

/-- First-occurrence deduplication relative to already-seen labels
(spec-side notion: "first 8 distinct group labels in first-encountered
order"). -/
def firstSeenAux (seen : List String) : List String → List String
  | [] => []
  | a :: t => if a ∈ seen then firstSeenAux seen t else a :: firstSeenAux (a :: seen) t

/-- Distinct labels in first-encountered order (spec-side notion). -/
def firstSeen (l : List String) : List String := firstSeenAux [] l

/-- Arithmetic mean (spec-side notion for the map-center claim). -/
def arithMean (l : List ℚ) : ℚ := l.sum / (l.length : ℚ)

/-- The spec's pie example: x-values A,A,B,C,C,C with y-values 1..6. -/
def pieExampleRows : List Record :=
  [[("x", Value.str "A"), ("y", Value.num 1)], [("x", Value.str "A"), ("y", Value.num 2)],
   [("x", Value.str "B"), ("y", Value.num 3)], [("x", Value.str "C"), ("y", Value.num 4)],
   [("x", Value.str "C"), ("y", Value.num 5)], [("x", Value.str "C"), ("y", Value.num 6)]]

/-- A dataset whose x-values are the integers 5 and 3, in that order. -/
def pieIntLabelRows : List Record :=
  [[("x", Value.num 5), ("y", Value.num 1)], [("x", Value.num 3), ("y", Value.num 2)]]

/-- A record whose y-cell is Null (an empty CSV cell). -/
def nullYRow : Record := [("a", Value.num 1), ("b", Value.null)]

/-- A two-point geographic dataset. -/
def geoWitnessRows : List Record :=
  [[("lat", Value.num 10), ("lon", Value.num 20)],
   [("lat", Value.num 30), ("lon", Value.num 40)]]

/-- A dataset with geo-named columns whose cells are all null. -/
def nullGeoRows : List Record := [[("lat", Value.null), ("lon", Value.null)]]

/-- A dataset whose only column is named lat_only. -/
def latOnlyRows : List Record := [[("lat_only", Value.num 1)]]

/-! ### Helper lemmas -/

theorem get?_isSome_of_lt {α : Type} (l : List α) (i : Nat) (h : i < l.length) :
    (l.get? i).isSome := by
  rw [List.get?_eq_get h]; rfl

theorem filterMap_take_of_isSome {α β : Type} (f : α → Option β) (l : List α) :
    ∀ m : Nat, (∀ a ∈ l, (f a).isSome) → (l.filterMap f).take m = (l.take m).filterMap f := by
  induction l with
  | nil => intro m _; simp
  | cons a t ih =>
    intro m h
    obtain ⟨b, hb⟩ := Option.isSome_iff_exists.mp (h a (List.mem_cons_self a t))
    cases m with
    | zero => simp
    | succ k =>
      simp only [List.filterMap_cons, hb, List.take_succ_cons]
      rw [ih k (fun x hx => h x (List.mem_cons_of_mem a hx))]

theorem range_filterMap_get {α : Type} : ∀ l : List α,
    (List.range l.length).filterMap (fun i => l.get? i) = l := by
  intro l
  induction l with
  | nil => simp
  | cons a t ih =>
    show (List.range (t.length + 1)).filterMap (fun i => (a :: t).get? i) = a :: t
    rw [List.range_succ_eq_map, List.filterMap_cons]
    show (match some a with
      | some b => b :: ((List.range t.length).map Nat.succ).filterMap (fun i => (a :: t).get? i)
      | none => ((List.range t.length).map Nat.succ).filterMap (fun i => (a :: t).get? i))
        = a :: t
    rw [List.filterMap_map]
    exact congrArg (a :: ·) ih

theorem sampleData_of_le {α : Type} (D : List α) (m : Nat) (h : D.length ≤ m) :
    sampleData D m = D := by
  simp [sampleData, h]

theorem sampleData_of_gt {α : Type} (D : List α) (m : Nat) (h : m < D.length) :
    sampleData D m =
      (((List.range D.length).filter (fun i => i % (D.length / m) == 0)).take m).filterMap
        (fun i => D.get? i) := by
  rw [sampleData, if_neg (by omega)]
  exact filterMap_take_of_isSome _ _ m (fun i hi =>
    get?_isSome_of_lt D i (List.mem_range.mp (List.mem_filter.mp hi).1))

theorem sampleData_length_le {α : Type} (D : List α) (m : Nat) :
    (sampleData D m).length ≤ m := by
  rw [sampleData]
  split
  · assumption
  · simp

theorem sampleData_idem {α : Type} (D : List α) (m : Nat) :
    sampleData (sampleData D m) m = sampleData D m :=
  sampleData_of_le _ _ (sampleData_length_le D m)

theorem filtered_range_cons_zero (len step : Nat) (h : 0 < len) :
    ∃ rest, (List.range len).filter (fun i => i % step == 0) = 0 :: rest := by
  obtain ⟨k, rfl⟩ := Nat.exists_eq_succ_of_ne_zero (Nat.pos_iff_ne_zero.mp h)
  rw [List.range_succ_eq_map, List.filter_cons_of_pos (by simp)]
  exact ⟨_, rfl⟩

theorem sampleData_ne_nil {α : Type} (D : List α) (m : Nat) (hm : 0 < m) (hD : D ≠ []) :
    sampleData D m ≠ [] := by
  by_cases hle : D.length ≤ m
  · rw [sampleData_of_le D m hle]; exact hD
  · have hgt : m < D.length := by omega
    rw [sampleData_of_gt D m hgt]
    obtain ⟨rest, hrest⟩ :=
      filtered_range_cons_zero D.length (D.length / m) (by omega)
    obtain ⟨k, rfl⟩ := Nat.exists_eq_succ_of_ne_zero (Nat.pos_iff_ne_zero.mp hm)
    rw [hrest, List.take_succ_cons, List.filterMap_cons]
    obtain ⟨b, hb⟩ := Option.isSome_iff_exists.mp (get?_isSome_of_lt D 0 (by omega))
    rw [hb]
    exact List.cons_ne_nil b _

theorem getD_mem_of_lt (l : List String) (i : Nat) (d : String) (h : i < l.length) :
    l.getD i d ∈ l := by
  rw [List.getD_eq_get?, List.get?_eq_get h]
  exact List.get_mem l i h

/-! ### Claims C1 and C2 -/

/-- Claim C1: for every dataset `D` and `maxPoints > 0` the sampler returns
`D` unchanged when `|D| ≤ maxPoints`; otherwise it keeps every stride-th
record (`stride = ⌊|D| / maxPoints⌋`) starting at index 0 truncated to
`maxPoints`; the output has length at most `maxPoints`, is a strictly
increasing index subsequence of `D` whose first index is 0, and resampling
the output with the same bound is a no-op. -/
theorem C1_sampler_spec {α : Type} (D : List α) (m : Nat) (hm : 0 < m) :
    (D.length ≤ m → sampleData D m = D) ∧
    (m < D.length →
      sampleData D m =
        (((List.range D.length).filter (fun i => i % (D.length / m) == 0)).take m).filterMap
          (fun i => D.get? i)) ∧
    (sampleData D m).length ≤ m ∧
    (∃ idxs : List Nat, idxs.Pairwise (· < ·) ∧ (∀ i ∈ idxs, i < D.length) ∧
      sampleData D m = idxs.filterMap (fun i => D.get? i) ∧
      (D ≠ [] → idxs.head? = some 0)) ∧
    sampleData (sampleData D m) m = sampleData D m := by
  refine ⟨sampleData_of_le D m, sampleData_of_gt D m, sampleData_length_le D m, ?_,
    sampleData_idem D m⟩
  by_cases hle : D.length ≤ m
  · refine ⟨List.range D.length, List.pairwise_lt_range _, ?_, ?_, ?_⟩
    · intro i hi; exact List.mem_range.mp hi
    · rw [sampleData_of_le D m hle, range_filterMap_get]
    · intro hD
      obtain ⟨k, hk⟩ := Nat.exists_eq_succ_of_ne_zero
        (Nat.pos_iff_ne_zero.mp (List.length_pos.mpr hD))
      rw [hk, List.range_succ_eq_map]; rfl
  · have hgt : m < D.length := by omega
    refine ⟨((List.range D.length).filter (fun i => i % (D.length / m) == 0)).take m,
      ?_, ?_, sampleData_of_gt D m hgt, ?_⟩
    · exact ((List.pairwise_lt_range _).filter _).sublist (List.take_sublist _ _)
    · intro i hi
      exact List.mem_range.mp
        (List.mem_filter.mp ((List.take_sublist _ _).subset hi)).1
    · intro _
      obtain ⟨rest, hrest⟩ :=
        filtered_range_cons_zero D.length (D.length / m) (by omega)
      obtain ⟨k, rfl⟩ := Nat.exists_eq_succ_of_ne_zero (Nat.pos_iff_ne_zero.mp hm)
      rw [hrest, List.take_succ_cons]; rfl

/-- Witness for C1 at a concrete dataset and bound. -/
theorem C1_sampler_spec_witness :
    (0 : Nat) < 2 ∧ (sampleData ([10, 20, 30, 40, 50] : List Nat) 2).length ≤ 2 ∧
      sampleData (sampleData ([10, 20, 30, 40, 50] : List Nat) 2) 2
        = sampleData ([10, 20, 30, 40, 50] : List Nat) 2 :=
  ⟨by decide, (C1_sampler_spec ([10, 20, 30, 40, 50] : List Nat) 2 (by decide)).2.2.1,
    (C1_sampler_spec ([10, 20, 30, 40, 50] : List Nat) 2 (by decide)).2.2.2.2⟩

/-- Claim C2: on loading a non-empty dataset with both axes unset, the x-axis
becomes the first numeric column when one exists; the y-axis becomes the
second numeric column when one exists, and otherwise — with exactly one
numeric column — duplicates the first; in particular
`[month: text, sales: number]` seeds `("sales", "sales")` and
`[a: text, b: number, c: number]` seeds `("b", "c")`. -/
theorem C2_default_axes_spec (D : List Record) (hD : D ≠ []) :
    (numericColumnsOf D ≠ [] →
      (loadAxes D "" "").1 = (numericColumnsOf D).getD 0 "") ∧
    (1 < (numericColumnsOf D).length →
      (loadAxes D "" "").2 = (numericColumnsOf D).getD 1 "") ∧
    ((numericColumnsOf D).length = 1 →
      (loadAxes D "" "").2 = (numericColumnsOf D).getD 0 "") ∧
    loadAxes [[("month", Value.str "Jan"), ("sales", Value.num 100)]] "" ""
      = ("sales", "sales") ∧
    loadAxes [[("a", Value.str "x"), ("b", Value.num 1), ("c", Value.num 2)]] "" ""
      = ("b", "c") := by
  have hlen : 0 < D.length := List.length_pos.mpr hD
  have hload : loadAxes D "" "" = defaultAxes (numericColumnsOf D) "" "" := by
    rw [loadAxes, if_pos hlen]
  refine ⟨?_, ?_, ?_, by decide, by decide⟩
  · intro hnc
    rw [hload, defaultAxes]
    simp [List.length_pos.mpr hnc]
  · intro h2
    rw [hload, defaultAxes]
    simp [h2]
  · intro h1
    rw [hload, defaultAxes]
    simp [h1]

/-- Witness for C2 at the spec's one-numeric-column example. -/
theorem C2_default_axes_spec_witness :
    loadAxes [[("month", Value.str "Jan"), ("sales", Value.num 100)]] "" ""
      = ("sales", "sales") :=
  (C2_default_axes_spec [[("month", Value.str "Jan"), ("sales", Value.num 100)]]
    (by decide)).2.2.2.1

/-! ### Pie accumulator lemmas -/

theorem pieUpsert_map_fst (acc : List (String × ℚ)) (k : String) (v : ℚ) :
    (pieUpsert acc k v).map Prod.fst =
      if k ∈ acc.map Prod.fst then acc.map Prod.fst else acc.map Prod.fst ++ [k] := by
  induction acc with
  | nil => simp [pieUpsert]
  | cons a t ih =>
    by_cases hak : a.1 = k
    · simp [pieUpsert, hak]
    · simp only [pieUpsert, if_neg hak, List.map_cons, ih, List.mem_cons]
      have hne : ¬k = a.1 := fun h => hak h.symm
      by_cases hk : k ∈ t.map Prod.fst
      · simp [hk, hne]
      · simp [hk, hne]

theorem alookup_pieUpsert (acc : List (String × ℚ)) (k : String) (v : ℚ) (k2 : String) :
    alookup k2 (pieUpsert acc k v) =
      if k2 = k then some ((alookup k acc).getD 0 + v) else alookup k2 acc := by
  induction acc with
  | nil =>
    by_cases h : k2 = k
    · subst h; simp [pieUpsert, alookup]
    · simp [pieUpsert, alookup, h, show ¬k = k2 from fun hh => h hh.symm]
  | cons a t ih =>
    by_cases hak : a.1 = k
    · by_cases h2 : k2 = k
      · subst h2
        simp [pieUpsert, alookup, hak]
      · have ha2 : ¬a.1 = k2 := fun h => h2 (h.symm.trans hak)
        simp [pieUpsert, alookup, hak, h2, ha2, show ¬k = k2 from fun hh => h2 hh.symm]
    · by_cases ha2 : a.1 = k2
      · have h2 : ¬k2 = k := fun h => hak (ha2.trans h)
        simp [pieUpsert, alookup, hak, ha2, h2]
      · simp [pieUpsert, alookup, hak, ha2, ih]

theorem firstSeenAux_congr (l : List String) :
    ∀ s1 s2 : List String, (∀ a, a ∈ s1 ↔ a ∈ s2) →
      firstSeenAux s1 l = firstSeenAux s2 l := by
  induction l with
  | nil => intro s1 s2 _; rfl
  | cons a t ih =>
    intro s1 s2 h
    simp only [firstSeenAux]
    by_cases ha : a ∈ s1
    · rw [if_pos ha, if_pos ((h a).mp ha), ih s1 s2 h]
    · rw [if_neg ha, if_neg (fun hh => ha ((h a).mpr hh)),
        ih (a :: s1) (a :: s2) (fun b => by simp [h b])]

theorem firstSeenAux_subset (l : List String) :
    ∀ seen, ∀ a ∈ firstSeenAux seen l, a ∈ l := by
  induction l with
  | nil => intro seen a ha; simp [firstSeenAux] at ha
  | cons b t ih =>
    intro seen a ha
    simp only [firstSeenAux] at ha
    by_cases hb : b ∈ seen
    · rw [if_pos hb] at ha
      exact List.mem_cons_of_mem b (ih seen a ha)
    · rw [if_neg hb] at ha
      rcases List.mem_cons.mp ha with h | h
      · exact h ▸ List.mem_cons_self b t
      · exact List.mem_cons_of_mem b (ih (b :: seen) a h)

theorem pieFold_map_fst (x y : String) :
    ∀ (l : List Record) (acc : List (String × ℚ)),
      (l.foldl (fun acc2 d => pieUpsert acc2 (pieLabel d x) (pieValue d y)) acc).map Prod.fst
        = acc.map Prod.fst ++ firstSeenAux (acc.map Prod.fst)
            (l.map (fun d => pieLabel d x)) := by
  intro l
  induction l with
  | nil => intro acc; simp [firstSeenAux]
  | cons d t ih =>
    intro acc
    simp only [List.foldl_cons, List.map_cons, firstSeenAux]
    rw [ih, pieUpsert_map_fst]
    by_cases hk : pieLabel d x ∈ acc.map Prod.fst
    · rw [if_pos hk, if_pos hk]
    · rw [if_neg hk, if_neg hk,
        firstSeenAux_congr _ (acc.map Prod.fst ++ [pieLabel d x])
          (pieLabel d x :: acc.map Prod.fst) (fun b => by simp [or_comm]),
        List.append_assoc, List.singleton_append]

theorem alookup_pieFold (x y : String) :
    ∀ (l : List Record) (acc : List (String × ℚ)) (k2 : String),
      alookup k2 (l.foldl (fun acc2 d => pieUpsert acc2 (pieLabel d x) (pieValue d y)) acc)
        = match alookup k2 acc with
          | some w => some (w + ((l.filter (fun d => pieLabel d x == k2)).map
              (fun d => pieValue d y)).sum)
          | none =>
            if k2 ∈ l.map (fun d => pieLabel d x)
            then some (((l.filter (fun d => pieLabel d x == k2)).map
              (fun d => pieValue d y)).sum)
            else none := by
  intro l
  induction l with
  | nil =>
    intro acc k2
    cases h : alookup k2 acc <;> simp [h]
  | cons d t ih =>
    intro acc k2
    simp only [List.foldl_cons]
    rw [ih, alookup_pieUpsert]
    by_cases hk : k2 = pieLabel d x
    · subst hk
      simp only [if_pos rfl]
      cases h : alookup (pieLabel d x) acc with
      | some w => simp [h, List.filter_cons, List.sum_cons, add_assoc]
      | none => simp [h, List.filter_cons, List.sum_cons]
    · rw [if_neg hk]
      have hbeq : (pieLabel d x == k2) = false := by
        simp [show ¬pieLabel d x = k2 from fun h => hk h.symm]
      cases h : alookup k2 acc with
      | some w => simp [h, List.filter_cons, hbeq]
      | none => simp [h, List.filter_cons, hbeq, hk]

theorem jsEntriesOrder_of_no_index (l : List (String × ℚ))
    (h : ∀ kv ∈ l, isArrayIndexKey kv.1 = false) : jsEntriesOrder l = l := by
  rw [jsEntriesOrder]
  have h1 : l.filter (fun kv => isArrayIndexKey kv.1) = [] :=
    List.filter_eq_nil.mpr (fun kv hkv => by simp [h kv hkv])
  have h2 : l.filter (fun kv => !isArrayIndexKey kv.1) = l :=
    List.filter_eq_self.mpr (fun kv hkv => by simp [h kv hkv])
  rw [h1, h2, sortIndexKeys, List.nil_append]

/-! ### Claim C3 -/

/-- Claim C3 counterexample: with integer group labels the enumeration order
of the accumulator object puts array-index keys in ascending numeric order,
not first-encountered order: x-values 5, 3 (encountered in that order)
produce the entries [(3, 2), (5, 1)]. -/
theorem C3_pie_counterexample :
    pieEntriesOf pieIntLabelRows "x" "y" = [("3", 2), ("5", 1)] ∧
    firstSeen (pieIntLabelRows.map (fun d => pieLabel d "x")) = ["5", "3"] ∧
    (pieEntriesOf pieIntLabelRows "x" "y").map Prod.fst ≠ ["5", "3"] :=
  ⟨by decide, by decide, by decide⟩

/-- Claim C3 amended: pie synthesis groups records by the string form of
their x-value and sums the coerced y-values per group, a failed coercion
contributing 0 with no finite-value filter; at most the first 8 entries of
the accumulator object are kept, in the object's enumeration order —
canonical-integer labels first in ascending numeric order, then the other
labels in first-encountered order — which is first-encountered order
whenever no label is a canonical integer string; the spec's example yields
groups A ↦ 3, B ↦ 3, C ↦ 15. -/
theorem C3_pie_amended (l : List Record) (x y : String) :
    (pieDataOf l x y).map Prod.fst = firstSeen (l.map (fun d => pieLabel d x)) ∧
    (∀ k, alookup k (pieDataOf l x y)
        = if k ∈ l.map (fun d => pieLabel d x)
          then some (((l.filter (fun d => pieLabel d x == k)).map
            (fun d => pieValue d y)).sum)
          else none) ∧
    pieEntriesOf l x y = (jsEntriesOrder (pieDataOf l x y)).take 8 ∧
    (pieEntriesOf l x y).length ≤ 8 ∧
    ((∀ a ∈ l.map (fun d => pieLabel d x), isArrayIndexKey a = false) →
      pieEntriesOf l x y = (pieDataOf l x y).take 8) ∧
    pieEntriesOf pieExampleRows "x" "y" = [("A", 3), ("B", 3), ("C", 15)] := by
  have hlabels : (pieDataOf l x y).map Prod.fst
      = firstSeen (l.map (fun d => pieLabel d x)) := by
    simpa [pieDataOf, firstSeen] using pieFold_map_fst x y l []
  refine ⟨hlabels, ?_, rfl, ?_, ?_, ?_⟩
  · intro k
    simpa [pieDataOf, alookup] using alookup_pieFold x y l [] k
  · rw [pieEntriesOf, List.length_take]
    exact Nat.min_le_left _ _
  · intro hall
    rw [pieEntriesOf, jsEntriesOrder_of_no_index]
    intro kv hkv
    refine hall kv.1 ?_
    have h1 : kv.1 ∈ (pieDataOf l x y).map Prod.fst := List.mem_map_of_mem Prod.fst hkv
    rw [hlabels] at h1
    exact firstSeenAux_subset _ [] kv.1 h1
  · have h : pieEntriesOf pieExampleRows "x" "y"
        = [("A", (1 : ℚ) + 2), ("B", 3), ("C", 4 + 5 + 6)] := rfl
    rw [h]
    norm_num

/-- Witness for the amended C3 at the spec's example dataset, including the
no-integer-label hypothesis of the first-encountered-order clause. -/
theorem C3_pie_amended_witness :
    pieEntriesOf pieExampleRows "x" "y" = [("A", 3), ("B", 3), ("C", 15)] ∧
    pieEntriesOf pieExampleRows "x" "y" = (pieDataOf pieExampleRows "x" "y").take 8 :=
  ⟨(C3_pie_amended pieExampleRows "x" "y").2.2.2.2.2,
   (C3_pie_amended pieExampleRows "x" "y").2.2.2.2.1 (by decide)⟩

/-! ### Claim C4 -/

/-- Claim C4 counterexample: a record whose y-cell is Null (the data model's
representation of a missing/empty cell) is not dropped from the cartesian
series — `Number(null)` is 0, which is finite — so the pair appears with
y = 0. -/
theorem C4_cartesian_counterexample :
    getField nullYRow "b" = some Value.null ∧
    xyValid [nullYRow] "a" "b" = [(some (Value.num 1), 0)] :=
  ⟨by decide, by decide⟩

/-- Claim C4 amended: for line/bar/area/scatter the series is exactly the
records whose y-value coerces to a number, each contributing the pair of raw
x-value and coerced y-value, keeping the original relative order; a y-cell
holding non-numeric text, or an absent y-field, coerces to NaN and is
dropped, while a Null y-cell coerces to 0 and is kept. -/
theorem C4_cartesian_series (l : List Record) (x y : String) :
    xyValid l x y
      = (l.filter (fun d => (jsNumberOpt (getField d y)).isSome)).map
          (fun d => (getField d x, (jsNumberOpt (getField d y)).getD 0)) ∧
    (∀ d : Record, getField d y = some Value.null →
      jsNumberOpt (getField d y) = some 0) ∧
    (∀ d : Record, getField d y = none → jsNumberOpt (getField d y) = none) := by
  have hcons : ∀ (d : Record) (t : List Record), xyValid (d :: t) x y
      = match jsNumberOpt (getField d y) with
        | some q => (getField d x, q) :: xyValid t x y
        | none => xyValid t x y := by
    intro d t
    cases hj : jsNumberOpt (getField d y) <;> simp [xyValid, List.filterMap_cons, hj]
  refine ⟨?_, ?_, ?_⟩
  · induction l with
    | nil => rfl
    | cons d t ih =>
      rw [hcons]
      cases h : jsNumberOpt (getField d y) with
      | some q => simp [List.filter_cons, h, ih]
      | none => simp [List.filter_cons, h, ih]
  · intro d h; rw [h]; rfl
  · intro d h; rw [h]; rfl

/-- Witness for the amended C4 at the Null-cell record. -/
theorem C4_cartesian_series_witness :
    xyValid [nullYRow] "a" "b"
      = ([nullYRow].filter (fun d => (jsNumberOpt (getField d "b")).isSome)).map
          (fun d => (getField d "a", (jsNumberOpt (getField d "b")).getD 0)) ∧
    jsNumberOpt (getField nullYRow "b") = some 0 :=
  ⟨(C4_cartesian_series [nullYRow] "a" "b").1,
   (C4_cartesian_series [nullYRow] "a" "b").2.1 nullYRow (by decide)⟩

/-! ### Claim C5 -/

theorem foldl_add_eq_sum (l : List ℚ) : ∀ a : ℚ, l.foldl (fun u v => u + v) a = a + l.sum := by
  induction l with
  | nil => intro a; simp
  | cons b t ih => intro a; simp [List.foldl_cons, ih, add_assoc]

theorem zoomOf_antitone (r s : ℚ) (h : r ≤ s) : zoomOf s ≤ zoomOf r := by
  rw [zoomOf, zoomOf]
  split_ifs <;> first | omega | (exfalso; linarith)

/-- Claim C5: on a non-empty geograph filter result whose geo cells are
numeric, the map center is the arithmetic mean of the latitudes and of the
longitudes, and the zoom is assigned from range = max(latRange, lonRange)
through the ordered thresholds 1, 5, 20, 50 ↦ 8, 6, 4, 3, else 2 — an
assignment monotonically non-increasing in the range; in particular ranges
0.5, 4, 10, 40, 100 give zooms 8, 6, 4, 3, 2. -/
theorem C5_geo_center_zoom (l : List Record) (lat lon : String)
    (hne : geoFilter l lat lon ≠ [])
    (hnum : ∀ d ∈ geoFilter l lat lon,
      (∃ q, getField d lat = some (Value.num q)) ∧
      (∃ q, getField d lon = some (Value.num q))) :
    geoCenter (geoFilter l lat lon) lat lon
      = (arithMean (geoNums (geoFilter l lat lon) lat),
         arithMean (geoNums (geoFilter l lat lon) lon)) ∧
    geoZoom (geoFilter l lat lon) lat lon
      = zoomOf (max
          (maxD (geoNums (geoFilter l lat lon) lat) - minD (geoNums (geoFilter l lat lon) lat))
          (maxD (geoNums (geoFilter l lat lon) lon) - minD (geoNums (geoFilter l lat lon) lon))) ∧
    (∀ r s : ℚ, r ≤ s → zoomOf s ≤ zoomOf r) ∧
    zoomOf (1 / 2) = 8 ∧ zoomOf 4 = 6 ∧ zoomOf 10 = 4 ∧ zoomOf 40 = 3 ∧ zoomOf 100 = 2 := by
  refine ⟨?_, rfl, zoomOf_antitone, by norm_num [zoomOf], by norm_num [zoomOf],
    by norm_num [zoomOf], by norm_num [zoomOf], by norm_num [zoomOf]⟩
  rw [geoCenter, arithMean, arithMean]
  simp [foldl_add_eq_sum]

/-- Witness for C5 at a concrete two-point geographic dataset. -/
theorem C5_geo_center_zoom_witness :
    geoCenter (geoFilter geoWitnessRows "lat" "lon") "lat" "lon"
      = (arithMean (geoNums (geoFilter geoWitnessRows "lat" "lon") "lat"),
         arithMean (geoNums (geoFilter geoWitnessRows "lat" "lon") "lon")) ∧
    zoomOf (1 / 2) = 8 := by
  have hnum : ∀ d ∈ geoFilter geoWitnessRows "lat" "lon",
      (∃ q, getField d "lat" = some (Value.num q)) ∧
      (∃ q, getField d "lon" = some (Value.num q)) := by
    intro d hd
    have hf : geoFilter geoWitnessRows "lat" "lon" = geoWitnessRows := by decide
    rw [hf, geoWitnessRows] at hd
    rcases List.mem_cons.mp hd with h1 | hd2
    · subst h1; exact ⟨⟨10, rfl⟩, ⟨20, rfl⟩⟩
    · rcases List.mem_cons.mp hd2 with h1 | hd3
      · subst h1; exact ⟨⟨30, rfl⟩, ⟨40, rfl⟩⟩
      · simp at hd3
  have h := C5_geo_center_zoom geoWitnessRows "lat" "lon" (by decide) hnum
  exact ⟨h.1, h.2.2.2.1⟩

/-! ### Claim C6 -/

theorem geoCell_ok_iff (v : Option Value) :
    (jsLooseNonNull v && !jsIsNaN v) = true ↔
      ∃ w, v = some w ∧ w ≠ Value.null ∧ (jsNumberOfValue w).isSome := by
  cases v with
  | none => simp [jsLooseNonNull, jsIsNaN]
  | some w =>
    cases w with
    | null => simp [jsLooseNonNull, jsIsNaN]
    | num q => simp [jsLooseNonNull, jsIsNaN, jsNumberOpt, jsNumberOfValue]
    | str s => simp [jsLooseNonNull, jsIsNaN, jsNumberOpt, jsNumberOfValue]

/-- Claim C6 counterexample: a dataset with columns named lat and lon whose
cells are all null has an empty geograph filter result — the trace carries no
coordinates — yet geography is reported available, because the availability
report is keyed on the column-name heuristics alone. -/
theorem C6_geo_counterexample :
    geoFilter (chartDataOf nullGeoRows) "lat" "lon" = [] ∧
    geoSeriesLat (chartDataOf nullGeoRows) "lat" "lon" = [] ∧
    geoColumnsOf nullGeoRows = (some "lat", some "lon") ∧
    geoAvailable nullGeoRows = true :=
  ⟨by decide, by decide, by decide, by decide⟩

/-- Claim C6 amended: the geograph series consists exactly of the records
whose two geo cells are present (non-null) and coerce to numbers, in original
order; when no record qualifies the trace's coordinate arrays are empty; but
geography is reported unavailable precisely when the column-name heuristics
fail to resolve one of the two geo columns — the emptiness of the filtered
set does not affect the availability report. -/
theorem C6_geo_filter (l : List Record) (lat lon : String) (D : List Record) :
    (∀ d, d ∈ geoFilter l lat lon ↔ d ∈ l ∧
      ((∃ v, getField d lat = some v ∧ v ≠ Value.null ∧ (jsNumberOfValue v).isSome) ∧
       (∃ v, getField d lon = some v ∧ v ≠ Value.null ∧ (jsNumberOfValue v).isSome))) ∧
    (geoFilter l lat lon).Sublist l ∧
    (geoFilter l lat lon = [] →
      geoSeriesLat l lat lon = [] ∧ geoSeriesLon l lat lon = []) ∧
    (geoAvailable D = false ↔
      (geoColumnsOf D).1 = none ∨ (geoColumnsOf D).2 = none) := by
  refine ⟨?_, List.filter_sublist l, ?_, ?_⟩
  · intro d
    rw [geoFilter, List.mem_filter]
    constructor
    · rintro ⟨hd, hb⟩
      simp only [Bool.and_eq_true] at hb
      obtain ⟨⟨⟨ha1, hb1⟩, ha2⟩, hb2⟩ := hb
      exact ⟨hd, (geoCell_ok_iff _).mp (by rw [Bool.and_eq_true]; exact ⟨ha1, ha2⟩),
        (geoCell_ok_iff _).mp (by rw [Bool.and_eq_true]; exact ⟨hb1, hb2⟩)⟩
    · rintro ⟨hd, h1, h2⟩
      have h1b := (geoCell_ok_iff _).mpr h1
      have h2b := (geoCell_ok_iff _).mpr h2
      rw [Bool.and_eq_true] at h1b h2b
      refine ⟨hd, ?_⟩
      simp only [Bool.and_eq_true]
      exact ⟨⟨⟨h1b.1, h2b.1⟩, h1b.2⟩, h2b.2⟩
  · intro h
    rw [geoSeriesLat, geoSeriesLon, h]
    exact ⟨rfl, rfl⟩
  · cases h1 : (geoColumnsOf D).1 <;> cases h2 : (geoColumnsOf D).2 <;>
      simp [geoAvailable, h1, h2]

/-- Witness for the amended C6 at the all-null geographic dataset. -/
theorem C6_geo_filter_witness :
    geoSeriesLat (chartDataOf nullGeoRows) "lat" "lon" = [] ∧
    geoSeriesLon (chartDataOf nullGeoRows) "lat" "lon" = [] :=
  (C6_geo_filter (chartDataOf nullGeoRows) "lat" "lon" []).2.2.1 (by decide)

/-! ### Claim C7 -/

/-- Claim C7: after each fetch+parse attempt the view state resolves by
precedence — any transport failure, non-success HTTP status or parse
rejection gives the Error phase carrying a message; otherwise zero records
gives Empty; otherwise an empty numericColumns set together with a plot type
other than geograph gives NoNumericData; otherwise Ready. -/
theorem C7_view_state (prev : List Record) (o : FetchOutcome) (plotType : String) :
    (∀ m, o = .transportFail m →
      viewPhase (afterAttempt prev o) plotType = .Error ∧
      (afterAttempt prev o).error = some m) ∧
    (∀ st, o = .httpFail st →
      viewPhase (afterAttempt prev o) plotType = .Error ∧
      (afterAttempt prev o).error = some ("HTTP error! status: " ++ toString st)) ∧
    (∀ m, o = .parseFail m →
      viewPhase (afterAttempt prev o) plotType = .Error ∧
      (afterAttempt prev o).error = some m) ∧
    (∀ rows, o = .success rows →
      (rows = [] → viewPhase (afterAttempt prev o) plotType = .Empty) ∧
      (rows ≠ [] → numericColumnsOf (sampleData rows MAX_POINTS) = [] →
        plotType ≠ "geograph" →
        viewPhase (afterAttempt prev o) plotType = .NoNumericData) ∧
      (rows ≠ [] →
        (numericColumnsOf (sampleData rows MAX_POINTS) ≠ [] ∨ plotType = "geograph") →
        viewPhase (afterAttempt prev o) plotType = .Ready)) := by
  refine ⟨?_, ?_, ?_, ?_⟩
  · rintro m rfl; exact ⟨rfl, rfl⟩
  · rintro st rfl; exact ⟨rfl, rfl⟩
  · rintro m rfl; exact ⟨rfl, rfl⟩
  · rintro rows rfl
    have hview : viewPhase (afterAttempt prev (.success rows)) plotType
        = (if (sampleData rows MAX_POINTS).length = 0 then Phase.Empty
           else if (numericColumnsOf (sampleData rows MAX_POINTS)).length = 0
               ∧ plotType ≠ "geograph" then Phase.NoNumericData
           else Phase.Ready) := rfl
    refine ⟨?_, ?_, ?_⟩
    · rintro rfl; rfl
    · intro hne hnc hpt
      have hlen : ¬(sampleData rows MAX_POINTS).length = 0 := fun h =>
        sampleData_ne_nil rows MAX_POINTS (by norm_num [MAX_POINTS]) hne
          (List.length_eq_zero.mp h)
      rw [hview, if_neg hlen, if_pos ⟨by rw [hnc]; rfl, hpt⟩]
    · intro hne hor
      have hlen : ¬(sampleData rows MAX_POINTS).length = 0 := fun h =>
        sampleData_ne_nil rows MAX_POINTS (by norm_num [MAX_POINTS]) hne
          (List.length_eq_zero.mp h)
      have hcond : ¬((numericColumnsOf (sampleData rows MAX_POINTS)).length = 0
          ∧ plotType ≠ "geograph") := by
        rintro ⟨hz, hg⟩
        rcases hor with h | h
        · exact h (List.length_eq_zero.mp hz)
        · exact hg h
      rw [hview, if_neg hlen, if_neg hcond]

/-- Witness for C7 at a concrete failing and a concrete succeeding attempt. -/
theorem C7_view_state_witness :
    (viewPhase (afterAttempt [] (FetchOutcome.transportFail "boom")) "line" = Phase.Error ∧
      (afterAttempt [] (FetchOutcome.transportFail "boom")).error = some "boom") ∧
    viewPhase (afterAttempt [] (FetchOutcome.success [])) "line" = Phase.Empty :=
  ⟨(C7_view_state [] (FetchOutcome.transportFail "boom") "line").1 "boom" rfl,
   ((C7_view_state [] (FetchOutcome.success []) "line").2.2.2 [] rfl).1 rfl⟩

/-! ### Claim C8 -/

/-- Claim C8 counterexample: the single column lat_only yields a one-sided
geoColumns value — latitude resolved, longitude null — not a fully absent
pair. -/
theorem C8_geo_columns_counterexample :
    geoColumnsOf latOnlyRows = (some "lat_only", none) ∧
    (geoColumnsOf latOnlyRows).1 ≠ none :=
  ⟨by decide, by decide⟩

/-- Claim C8 amended: the raw geoColumns value resolves each side
independently and can be one-sided; geographic availability — the gate every
consumer applies — requires both sides, so geography is available exactly
when both a latitude and a longitude column resolve;
["Latitude","Longitude","Temp"] resolves to (Latitude, Longitude) and is
available, while ["lat_only"] resolves one-sidedly and is unavailable. -/
theorem C8_geo_columns (D : List Record) :
    (geoAvailable D = true ↔
      (∃ a, (geoColumnsOf D).1 = some a) ∧ ∃ b, (geoColumnsOf D).2 = some b) ∧
    geoColumnsOf
        [[("Latitude", Value.num 1), ("Longitude", Value.num 2), ("Temp", Value.num 20)]]
      = (some "Latitude", some "Longitude") ∧
    geoAvailable
        [[("Latitude", Value.num 1), ("Longitude", Value.num 2), ("Temp", Value.num 20)]]
      = true ∧
    geoColumnsOf latOnlyRows = (some "lat_only", none) ∧
    geoAvailable latOnlyRows = false := by
  refine ⟨?_, by decide, by decide, by decide, by decide⟩
  cases h1 : (geoColumnsOf D).1 <;> cases h2 : (geoColumnsOf D).2 <;>
    simp [geoAvailable, h1, h2]

/-- Witness for the amended C8 at the one-sided dataset. -/
theorem C8_geo_columns_witness :
    geoAvailable latOnlyRows = false :=
  (C8_geo_columns latOnlyRows).2.2.2.2

/-! ### Claim C9 -/

theorem defaultAxes_fst (nc : List String) (x0 y0 : String) :
    (defaultAxes nc x0 y0).1
      = if 0 < nc.length ∧ x0 = "" then nc.getD 0 x0 else x0 := rfl

theorem defaultAxes_snd (nc : List String) (x0 y0 : String) :
    (defaultAxes nc x0 y0).2
      = if 1 < nc.length ∧ y0 = "" then nc.getD 1 y0
        else if nc.length = 1 ∧ y0 = "" then nc.getD 0 y0 else y0 := rfl

theorem loadAxes_fst_within (sd : List Record) (x0 y0 : String)
    (hx : x0 ≠ "" → x0 = "index" ∨ x0 ∈ numericColumnsOf sd) :
    (loadAxes sd x0 y0).1 ≠ "" →
      (loadAxes sd x0 y0).1 = "index" ∨ (loadAxes sd x0 y0).1 ∈ numericColumnsOf sd := by
  rw [loadAxes]
  split_ifs with h0
  · rw [defaultAxes_fst]
    split_ifs with h1
    · intro _; exact Or.inr (getD_mem_of_lt _ 0 x0 h1.1)
    · exact hx
  · exact hx

theorem loadAxes_snd_within (sd : List Record) (x0 y0 : String)
    (hy : y0 ≠ "" → y0 = "index" ∨ y0 ∈ numericColumnsOf sd) :
    (loadAxes sd x0 y0).2 ≠ "" →
      (loadAxes sd x0 y0).2 = "index" ∨ (loadAxes sd x0 y0).2 ∈ numericColumnsOf sd := by
  rw [loadAxes]
  split_ifs with h0
  · rw [defaultAxes_snd]
    split_ifs with h1 h2
    · intro _; exact Or.inr (getD_mem_of_lt _ 1 y0 h1.1)
    · intro _; exact Or.inr (getD_mem_of_lt _ 0 y0 (by omega))
    · exact hy
  · exact hy

/-- Claim C9 counterexample: the state reached by loading a dataset whose
only (numeric) column is a — which seeds both axes to a — and then
refreshing with a dataset whose only column is b keeps xAxis = a, which lies
outside numericColumns ∪ {index} of the current dataset. -/
theorem C9_axes_counterexample :
    Reachable ⟨[[("b", Value.num 1)]], "a", "a"⟩ ∧
    ¬axesWithinColumns ⟨[[("b", Value.num 1)]], "a", "a"⟩ := by
  constructor
  · have h1 : loadState [[("a", Value.num 1)]] initState
        = ⟨[[("a", Value.num 1)]], "a", "a"⟩ := by decide
    have h2 : refreshState [[("b", Value.num 1)]] ⟨[[("a", Value.num 1)]], "a", "a"⟩
        = ⟨[[("b", Value.num 1)]], "a", "a"⟩ := by decide
    have r1 := Reachable.step Reachable.init (DashStep.load [[("a", Value.num 1)]] initState)
    rw [h1] at r1
    have r2 := Reachable.step r1
      (DashStep.refresh [[("b", Value.num 1)]] ⟨[[("a", Value.num 1)]], "a", "a"⟩)
    rw [h2] at r2
    exact r2
  · intro h
    rcases h.1 (by decide) with h1 | h1 <;> revert h1 <;> decide

/-- Claim C9 amended: the axes stay within numericColumns ∪ {index} of the
current dataset across default seeding from the mount state and across every
transition that preserves the dataset's numeric columns (in particular the
constrained user axis selections); a refresh keeps both axes verbatim while
replacing the dataset, so the invariant survives a refresh only when the new
dataset still carries the selected columns. -/
theorem C9_axes_invariant_amended :
    (∀ rows : List Record, axesWithinColumns (loadState rows initState)) ∧
    (∀ s t : DashState, DashStep s t → axesWithinColumns s →
      numericColumnsOf t.csvData = numericColumnsOf s.csvData → axesWithinColumns t) ∧
    (∀ (s : DashState) (rows : List Record),
      (refreshState rows s).xAxis = s.xAxis ∧ (refreshState rows s).yAxis = s.yAxis) := by
  refine ⟨?_, ?_, fun s rows => ⟨rfl, rfl⟩⟩
  · intro rows
    exact ⟨loadAxes_fst_within _ "" "" (fun h => absurd rfl h),
      loadAxes_snd_within _ "" "" (fun h => absurd rfl h)⟩
  · intro s t hstep hinv hnc
    cases hstep with
    | load rows s =>
      have hncl : numericColumnsOf (sampleData rows MAX_POINTS)
          = numericColumnsOf s.csvData := hnc
      constructor
      · refine loadAxes_fst_within _ _ _ (fun h => ?_)
        rcases hinv.1 h with h1 | h1
        · exact Or.inl h1
        · exact Or.inr (hncl ▸ h1)
      · refine loadAxes_snd_within _ _ _ (fun h => ?_)
        rcases hinv.2 h with h1 | h1
        · exact Or.inl h1
        · exact Or.inr (hncl ▸ h1)
    | setX c s hc =>
      exact ⟨fun _ => hc, hinv.2⟩
    | setY c s hc =>
      exact ⟨hinv.1, fun _ => Or.inr hc⟩
    | refresh rows s =>
      have hncl : numericColumnsOf (sampleData rows MAX_POINTS)
          = numericColumnsOf s.csvData := hnc
      constructor
      · intro h
        rcases hinv.1 h with h1 | h1
        · exact Or.inl h1
        · exact Or.inr (hncl ▸ h1)
      · intro h
        rcases hinv.2 h with h1 | h1
        · exact Or.inl h1
        · exact Or.inr (hncl ▸ h1)

/-- Witness for the amended C9: a user x-axis selection of index on a loaded
single-column dataset keeps the axes within numericColumns ∪ {index}. -/
theorem C9_axes_invariant_amended_witness :
    axesWithinColumns ⟨[[("a", Value.num 1)]], "index", "a"⟩ :=
  C9_axes_invariant_amended.2.1 ⟨[[("a", Value.num 1)]], "a", "a"⟩
    ⟨[[("a", Value.num 1)]], "index", "a"⟩
    (DashStep.setX "index" ⟨[[("a", Value.num 1)]], "a", "a"⟩ (Or.inl rfl))
    (by constructor <;> intro h <;> decide) rfl

/-! ### Claim C10 -/

theorem getField_cons (kv : String × Value) (t : Record) (k : String) :
    getField (kv :: t) k = if kv.1 == k then some kv.2 else getField t k := by
  rw [getField, List.find?_cons]
  cases h : kv.1 == k <;> simp [h, getField]

theorem addIndexFrom_get? (l : List Record) :
    ∀ j i : Nat, (addIndexFrom j l).get? i
      = (l.get? i).map (fun r => setIndexField r (Value.num (((j + i : Nat) : ℚ) + 1))) := by
  induction l with
  | nil => intro j i; simp [addIndexFrom]
  | cons r t ih =>
    intro j i
    cases i with
    | zero => simp [addIndexFrom]
    | succ k =>
      simp only [addIndexFrom, List.get?_cons_succ]
      rw [ih (j + 1) k]
      have harith : j + 1 + k = j + (k + 1) := by omega
      rw [harith]

theorem addIndexFrom_length (l : List Record) :
    ∀ j : Nat, (addIndexFrom j l).length = l.length := by
  induction l with
  | nil => intro j; rfl
  | cons r t ih => intro j; simp [addIndexFrom, ih]

theorem setIndexField_of_not_mem (row : Record) (v : Value)
    (h : "index" ∉ row.map Prod.fst) : setIndexField row v = row ++ [("index", v)] := by
  rw [setIndexField, if_neg]
  intro hc
  rcases List.any_eq_true.mp hc with ⟨kv, hkv, hbeq⟩
  exact h (beq_iff_eq.mp hbeq ▸ List.mem_map_of_mem Prod.fst hkv)

theorem getField_replaceIndex_ne (t : Record) (v : Value) (k : String) (hk : ¬k = "index") :
    getField (t.map (fun kv => if kv.1 == "index" then (kv.1, v) else kv)) k
      = getField t k := by
  induction t with
  | nil => rfl
  | cons kv t ih =>
    rw [List.map_cons, getField_cons, getField_cons]
    by_cases hi : kv.1 = "index"
    · have hne : (kv.1 == k) = false :=
        beq_eq_false_iff_ne.mpr (fun hh => hk (hh.symm.trans hi))
      have hh : ((if kv.1 == "index" then (kv.1, v) else kv) : String × Value).1 = kv.1 := by
        split_ifs <;> rfl
      rw [hh, hne, ih]
      simp
    · have hh : ((if kv.1 == "index" then (kv.1, v) else kv) : String × Value) = kv := by
        rw [if_neg (by simp [hi])]
      rw [hh, ih]

theorem getField_replaceIndex_index (t : Record) (v : Value) :
    t.any (fun kv => kv.1 == "index") = true →
      getField (t.map (fun kv => if kv.1 == "index" then (kv.1, v) else kv)) "index"
        = some v := by
  induction t with
  | nil => intro h; simp at h
  | cons kv t ih =>
    intro h
    rw [List.map_cons, getField_cons]
    by_cases hi : kv.1 = "index"
    · have hh : ((if kv.1 == "index" then (kv.1, v) else kv) : String × Value)
          = (kv.1, v) := by rw [if_pos (by simp [hi])]
      rw [hh]
      simp [hi]
    · have hh : ((if kv.1 == "index" then (kv.1, v) else kv) : String × Value) = kv := by
        rw [if_neg (by simp [hi])]
      have h2 : t.any (fun kv => kv.1 == "index") = true := by
        rcases List.any_eq_true.mp h with ⟨kv2, hkv2, hb⟩
        rcases List.mem_cons.mp hkv2 with he | ht
        · exact absurd (beq_iff_eq.mp (he ▸ hb)) hi
        · exact List.any_eq_true.mpr ⟨kv2, ht, hb⟩
      rw [hh, if_neg (by simp [hi])]
      exact ih h2

theorem getField_append_index (row : Record) (v : Value)
    (h : row.any (fun kv => kv.1 == "index") = false) :
    getField (row ++ [("index", v)]) "index" = some v := by
  induction row with
  | nil => rfl
  | cons kv t ih =>
    rw [List.cons_append, getField_cons]
    rw [List.any_cons, Bool.or_eq_false_iff] at h
    rw [h.1, if_neg (by simp)]
    exact ih h.2

theorem getField_setIndexField_index (row : Record) (v : Value) :
    getField (setIndexField row v) "index" = some v := by
  rw [setIndexField]
  cases h : row.any (fun kv => kv.1 == "index")
  · rw [if_neg (by simp [h])]
    exact getField_append_index row v h
  · rw [if_pos (by simp [h])]
    exact getField_replaceIndex_index row v h

theorem getField_append_ne (row : Record) (v : Value) (k : String) (hk : ¬k = "index") :
    getField (row ++ [("index", v)]) k = getField row k := by
  induction row with
  | nil =>
    have hb : (("index" : String) == k) = false :=
      beq_eq_false_iff_ne.mpr (fun hh => hk hh.symm)
    rw [List.nil_append, getField_cons, hb]
    simp
  | cons kv t ih =>
    rw [List.cons_append, getField_cons, getField_cons]
    cases h : kv.1 == k <;> rw [ih]

theorem getField_setIndexField_ne (row : Record) (v : Value) (k : String)
    (hk : k ≠ "index") : getField (setIndexField row v) k = getField row k := by
  rw [setIndexField]
  split_ifs with h
  · exact getField_replaceIndex_ne row v k hk
  · exact getField_append_ne row v k hk

/-- Claim C10 counterexample: on a record that already carries an index
column, the synthesizer input gains no field — the existing column's value
99 is overwritten in place with the 1-based position. -/
theorem C10_chart_data_counterexample :
    chartDataOf [[("index", Value.num 99)]] = [[("index", Value.num 1)]] ∧
    ([("index", Value.num 1)] : Record).length
      = ([("index", Value.num 99)] : Record).length ∧
    getField [("index", Value.num 1)] "index" ≠ some (Value.num 99) := by
  refine ⟨?_, rfl, by decide⟩
  have h : chartDataOf [[("index", Value.num 99)]]
      = [[("index", Value.num (((0 : Nat) : ℚ) + 1))]] := rfl
  rw [h]
  norm_num

/-- Claim C10 amended: the record sequence handed to the synthesizer is the
sampled records with the field index set to i + 1 at 0-based position i —
appended as a new final field when the record has no index column, and
otherwise overwriting the existing index column in place; every field other
than index keeps its value.  ("Exactly one field added with originals
unchanged" fails exactly when a CSV column is itself named index.) -/
theorem C10_chart_data (csvData : List Record) :
    (chartDataOf csvData).length = csvData.length ∧
    (∀ i row, csvData.get? i = some row →
      (chartDataOf csvData).get? i
        = some (setIndexField row (Value.num (((i : Nat) : ℚ) + 1))) ∧
      ("index" ∉ row.map Prod.fst →
        setIndexField row (Value.num (((i : Nat) : ℚ) + 1))
          = row ++ [("index", Value.num (((i : Nat) : ℚ) + 1))]) ∧
      (∀ k, k ≠ "index" →
        getField (setIndexField row (Value.num (((i : Nat) : ℚ) + 1))) k
          = getField row k) ∧
      getField (setIndexField row (Value.num (((i : Nat) : ℚ) + 1))) "index"
        = some (Value.num (((i : Nat) : ℚ) + 1))) := by
  refine ⟨addIndexFrom_length csvData 0, ?_⟩
  intro i row hrow
  have hget := addIndexFrom_get? csvData 0 i
  rw [hrow] at hget
  have h0 : ((0 + i : Nat) : ℚ) = ((i : Nat) : ℚ) := by norm_num
  rw [h0] at hget
  exact ⟨hget, setIndexField_of_not_mem row _,
    fun k hk => getField_setIndexField_ne row _ k hk,
    getField_setIndexField_index row _⟩

/-- Witness for the amended C10 at a single-record dataset. -/
theorem C10_chart_data_witness :
    getField (setIndexField [("a", Value.num 5)] (Value.num (((0 : Nat) : ℚ) + 1))) "a"
      = getField [("a", Value.num 5)] "a" ∧
    getField (setIndexField [("a", Value.num 5)] (Value.num (((0 : Nat) : ℚ) + 1))) "index"
      = some (Value.num (((0 : Nat) : ℚ) + 1)) :=
  ⟨((C10_chart_data [[("a", Value.num 5)]]).2 0 [("a", Value.num 5)] rfl).2.2.1 "a"
    (by decide),
   ((C10_chart_data [[("a", Value.num 5)]]).2 0 [("a", Value.num 5)] rfl).2.2.2⟩

end CSVDash
